import Mathlib

/-!
Verification of the KesslerSimdrome frontend core (src/main.js): the
streaming object reconciliation and visibility engine.

Modelling conventions.
JavaScript numbers are idealized as rationals, except in `JsNum` below
where the IEEE special values matter to the claim under scrutiny
(altitudeToBin on NaN and the infinities).  Cesium library calls the
source depends on are modelled by their documented behaviour:
`Cesium.Cartographic.fromCartesian` (a geodetic solver that can fail and
then returns undefined) and `Cesium.Cartesian3.magnitude` (the Euclidean
norm, irrational on rational inputs) are carried as components of a
`CesiumEnv` value, and `Cesium.Entity.show` defaults to `true` when the
entity is created without a `show` option.  Entity ids: the source keys
its live map by `String(id)` where `id` is the object index; `String` is
injective on integers, so the key is modelled as the integer itself.
-/

namespace KesslerSim

/-- A JavaScript number as consumed by the altitude-binning code:
either a finite value (idealized as a rational) or one of the IEEE
special values NaN, +Infinity, -Infinity. -/
inductive JsNum where
  | nan : JsNum
  | inf : JsNum
  | ninf : JsNum
  | val : ℚ → JsNum
deriving DecidableEq

/-- `h / 1000` on a JavaScript number: NaN and the infinities are fixed,
a finite value divides exactly. -/
def JsNum.div1000 : JsNum → JsNum
  | .nan => .nan
  | .inf => .inf
  | .ninf => .ninf
  | .val x => .val (x / 1000)

/-- `h < c` for a JavaScript number against a finite constant:
any comparison with NaN is false, +Infinity is below nothing finite,
-Infinity is below everything finite. -/
def JsNum.ltc : JsNum → ℚ → Bool
  | .nan, _ => false
  | .inf, _ => false
  | .ninf, _ => true
  | .val x, c => decide (x < c)

/-- src/main.js lines 78-86: altitude in meters to the bin label. -/
def altitudeToBin (h : JsNum) : String :=
  let km := h.div1000
  if km.ltc 200 then "0-200"
  else if km.ltc 400 then "200-400"
  else if km.ltc 800 then "400-800"
  else if km.ltc 1200 then "800-1200"
  else if km.ltc 2000 then "1200-2000"
  else "2000+"

/-- src/main.js lines 66-76: altitude in meters to a Cesium color,
modelled by the color name. -/
def altitudeToColorMeters (h : JsNum) : String :=
  let km := h.div1000
  if km.ltc 200 then "DEEPSKYBLUE"
  else if km.ltc 400 then "LIME"
  else if km.ltc 800 then "YELLOW"
  else if km.ltc 1200 then "ORANGE"
  else if km.ltc 2000 then "RED"
  else "MAGENTA"

/-- src/main.js lines 59-63: point pixel size by object type. -/
def sizeByType (type : String) : ℚ :=
  if type = "Active" then 8
  else if type = "Junk" then 4
  else 6

/-- Character-list prefix test, for the substring test below. -/
def isPrefixList : List Char → List Char → Bool
  | [], _ => true
  | _ :: _, [] => false
  | a :: as, b :: bs => a = b && isPrefixList as bs

/-- `s.includes(pat)`: the pattern occurs as a contiguous run of `s`. -/
def listIncludes (pat : List Char) : List Char → Bool
  | [] => isPrefixList pat []
  | c :: rest => isPrefixList pat (c :: rest) || listIncludes pat rest

/-- src/main.js lines 89-94: normalize a raw type string (uppercase it,
then look for the PAYLOAD or ACTIVE substring).  A missing or empty
(JS-falsy) value yields "Active". -/
def normalizeTypeForDev (raw : Option String) : String :=
  match raw with
  | none => "Active"
  | some r =>
    if r = "" then "Active"
    else
      let t := r.data.map Char.toUpper
      if listIncludes "PAYLOAD".data t || listIncludes "ACTIVE".data t then
        "Active"
      else "Junk"

/-- src/main.js lines 96-107: the closed set of known country buckets. -/
def knownCountries : List String :=
  ["United States", "United Kingdom", "France", "Japan", "Italy", "Soviet Union"]

/-- src/main.js lines 96-107: normalize a raw country string.  A missing
or empty (JS-falsy) value yields "Other". -/
def normalizeCountryForDev (raw : Option String) : String :=
  match raw with
  | none => "Other"
  | some r =>
    if r = "" then "Other"
    else if knownCountries.contains r then r else "Other"

/-- A position or velocity vector, components idealized as rationals. -/
abbrev Vec3 : Type := ℚ × ℚ × ℚ

/-- A Cesium `Cartographic` value (longitude, latitude, height in meters). -/
structure Cartographic where
  longitude : ℚ
  latitude : ℚ
  height : ℚ
deriving DecidableEq

/-- The Cesium library operations the transform depends on.
`fromCartesian` models `Cesium.Cartographic.fromCartesian`, which
returns undefined (here `none`) when the geodetic solver fails, e.g. on
the zero vector.  `magnitude` models `Cesium.Cartesian3.magnitude`, the
Euclidean norm, kept abstract because a square root is irrational on
rational inputs. -/
structure CesiumEnv where
  fromCartesian : Vec3 → Option Cartographic
  magnitude : Vec3 → ℚ

/-- `Cesium.Ellipsoid.WGS84.maximumRadius` in meters. -/
def wgs84MaximumRadius : ℚ := 6378137

/-- Kilometers to meters scaling of the input vector, as done at the top
of `kmEciToCartographicMeters`. -/
def toCartMeters (posKm : Vec3) : Vec3 :=
  (posKm.1 * 1000, posKm.2.1 * 1000, posKm.2.2 * 1000)

/-- src/main.js lines 141-160: convert a position in kilometers to the
meter-scaled cartesian vector plus a cartographic value.  When the
geodetic conversion fails the height falls back to the vector magnitude
minus the WGS84 maximum radius; the function is total by construction,
matching the never-throws behaviour of the source. -/
def kmEciToCartographicMeters (env : CesiumEnv) (posKm : Vec3) :
    Vec3 × Cartographic :=
  let cart := toCartMeters posKm
  match env.fromCartesian cart with
  | some carto => (cart, carto)
  | none =>
    let r := env.magnitude cart
    let height := r - wgs84MaximumRadius
    (cart, { longitude := 0, latitude := 0, height := height })

/-- One entry of the Kessler live cache: the `kesslerDS` entity created
by `upsertLiveDotFromBackend` together with its `PropertyBag` metadata
and point graphics.  `visible` models the entity `show` flag. -/
structure TrackedObject where
  id : Nat
  type : String
  country : String
  position : Vec3
  altBin : String
  color : String
  pixelSize : ℚ
  vx : ℚ
  vy : ℚ
  vz : ℚ
  visible : Bool
deriving DecidableEq

/-- src/main.js lines 331-335: the in-place update applied to an entity
whose id already exists: position, altitude bin and color are rewritten
from the new sample; type, country, pixel size, velocity and the show
flag are not touched by the update branch of the source. -/
def updatedEntity (env : CesiumEnv) (posKm : Vec3) (e : TrackedObject) :
    TrackedObject :=
  { e with
      position := (kmEciToCartographicMeters env posKm).1,
      altBin := altitudeToBin (.val (kmEciToCartographicMeters env posKm).2.height),
      color := altitudeToColorMeters (.val (kmEciToCartographicMeters env posKm).2.height) }

/-- src/main.js lines 305-328: the new entity added for a fresh id.  The
source passes no `show` option to `entities.add`, so the entity keeps
the Cesium default `show = true`.  The `Number.isFinite` guard on the
creation height never fires in the NaN-free rational model, so the
creation height is the cartographic height. -/
def createdEntity (env : CesiumEnv) (id : Nat) (posKm velKmps : Vec3)
    (metaType metaCountry : Option String) : TrackedObject :=
  let type := normalizeTypeForDev (some (metaType.getD "Junk"))
  { id := id,
    type := type,
    country := normalizeCountryForDev (some (metaCountry.getD "Other")),
    position := (kmEciToCartographicMeters env posKm).1,
    altBin := altitudeToBin (.val (kmEciToCartographicMeters env posKm).2.height),
    color := altitudeToColorMeters (.val (kmEciToCartographicMeters env posKm).2.height),
    pixelSize := sizeByType type,
    vx := velKmps.1,
    vy := velKmps.2.1,
    vz := velKmps.2.2,
    visible := true }

/-- src/main.js lines 295-336: upsert one live dot.  The key of the
live map is `String(id)`; a fresh id appends a new entity, an existing
id is updated in place. -/
def upsertLiveDotFromBackend (env : CesiumEnv) (cache : List TrackedObject)
    (id : Nat) (posKm velKmps : Vec3)
    (metaType metaCountry : Option String) : List TrackedObject :=
  if cache.any (fun e => e.id = id) then
    cache.map (fun e => if e.id = id then updatedEntity env posKm e else e)
  else
    cache ++ [createdEntity env id posKm velKmps metaType metaCountry]

/-- A parsed JSON value, the result of `JSON.parse` on a line. -/
inductive Json where
  | null : Json
  | bool : Bool → Json
  | num : ℚ → Json
  | str : String → Json
  | arr : List Json → Json
  | obj : List (String × Json) → Json

/-- JavaScript truthiness of a JSON value, as used by `if (msg.status)`. -/
def truthy : Json → Bool
  | .null => false
  | .bool b => b
  | .num x => decide (x ≠ 0)
  | .str s => s != ""
  | .arr _ => true
  | .obj _ => true

/-- Property access `j.k`: `none` models undefined (absent field or
non-object receiver). -/
def jsGet (j : Json) (k : String) : Option Json :=
  match j with
  | .obj fields => fields.lookup k
  | _ => none

/-- Truthiness of a possibly-undefined value: undefined is falsy. -/
def truthyOpt : Option Json → Bool
  | none => false
  | some v => truthy v

/-- Index access `j[i]`: `none` models undefined. -/
def jsIndex (j : Json) (i : Nat) : Option Json :=
  match j with
  | .arr elems => elems.get? i
  | _ => none

/-- Numeric readout of a possibly-undefined JSON value.  JavaScript
arithmetic on a non-number would produce NaN; the rational model uses 0,
and no claim under scrutiny exercises a malformed object entry. -/
def numOr0 : Option Json → ℚ
  | some (.num x) => x
  | _ => 0

/-- Non-negative integer readout of a counter field (the protocol sends
non-negative integers for the collision and object counters). -/
def natOr0 : Option Json → Nat
  | some (.num x) => x.floor.toNat
  | _ => 0

/-- The filter criteria in effect during one `applyFilters` run: the
checked type codes mapped through `TYPE_CODE_MAP`, the checked country
codes mapped through `COUNTRY_CODE_MAP`, and the `activeAltBins` set
(src/main.js lines 796-822); the DOM reads are modelled by passing the
resulting three collections as a value. -/
structure Criteria where
  activeTypes : List String
  activeCountries : List String
  activeAltBins : List String
deriving DecidableEq

/-- src/main.js lines 837-840: the eligibility test of one entity, the
conjunction of the three membership tests. -/
def passesFilters (crit : Criteria) (e : TrackedObject) : Bool :=
  crit.activeTypes.contains e.type &&
  crit.activeCountries.contains e.country &&
  crit.activeAltBins.contains e.altBin

/-- src/main.js lines 828-849: the entity loop of `applyFilters`.
`shown` is the running `shownCount`; every entity passing the filters
while the count is below the cap is marked visible, every other entity
is marked not visible.  Returns the rewritten list and the final count.
Every cached entity has properties (upsert always attaches them), so
the missing-properties skip branch of the source never fires here. -/
def applyFiltersList (crit : Criteria) (cap : Nat) :
    Nat → List TrackedObject → List TrackedObject × Nat
  | shown, [] => ([], shown)
  | shown, e :: rest =>
    if passesFilters crit e = true ∧ shown < cap then
      let r := applyFiltersList crit cap (shown + 1) rest
      ({ e with visible := true } :: r.1, r.2)
    else
      let r := applyFiltersList crit cap shown rest
      ({ e with visible := false } :: r.1, r.2)

/-- The mutable session state touched by the live stream loop: the
Kessler entity cache, the slider max attribute, the simulation info box
fields, the two counter spans, and the diagnostic side channels
(`console.log` of status values, `console.warn` count of bad lines). -/
structure SimState where
  cache : List TrackedObject
  sliderMax : Nat
  infoObjects : Nat
  infoCollisions : Nat
  infoStep : Nat
  visibleReported : Nat
  totalReported : Nat
  statusLog : List (Option Json)
  diagnostics : Nat

/-- src/main.js lines 897-910: `updateCounter`.  The visible count is
the number of cached entities whose show flag is set; the total is the
slider max attribute (the commented-out entity count is not used). -/
def updateCounter (st : SimState) : SimState :=
  { st with
      visibleReported := st.cache.countP (fun e => e.visible),
      totalReported := st.sliderMax }

/-- src/main.js lines 817-852: one `applyFilters` run in Kessler mode:
rewrite every show flag by the capacity-bounded filter pass, then update
the counter. -/
def applyFilters (crit : Criteria) (cap : Nat) (st : SimState) : SimState :=
  updateCounter { st with cache := (applyFiltersList crit cap 0 st.cache).1 }

/-- A decoded frame message (src/main.js lines 266-288). -/
structure FrameMsg where
  objects : List (Vec3 × Vec3)
  objectCount : Nat
  totalCollisions : Nat
  stepCollisions : Nat
deriving DecidableEq

/-- src/main.js lines 278-286: the per-object loop of a frame; the
running index is the synthesized id. -/
def applyObjects (env : CesiumEnv) :
    List (Vec3 × Vec3) → Nat → List TrackedObject → List TrackedObject
  | [], _, cache => cache
  | p :: rest, i, cache =>
    applyObjects env rest (i + 1)
      (upsertLiveDotFromBackend env cache i p.1 p.2 none none)

/-- src/main.js lines 266-288: apply one frame message: update the info
box, set the slider max to the reported object count, upsert every
object, then rerun the filters. -/
def applyFrame (env : CesiumEnv) (crit : Criteria) (cap : Nat)
    (st : SimState) (f : FrameMsg) : SimState :=
  let st1 := { st with
      infoObjects := f.objectCount,
      infoCollisions := f.totalCollisions,
      infoStep := f.stepCollisions,
      sliderMax := f.objectCount }
  applyFilters crit cap
    { st1 with cache := applyObjects env f.objects 0 st1.cache }

/-- Decode `pair[i]` as a vector of three numbers. -/
def decodeVec3 (o : Option Json) : Vec3 :=
  (numOr0 (o.bind (fun j => jsIndex j 0)),
   numOr0 (o.bind (fun j => jsIndex j 1)),
   numOr0 (o.bind (fun j => jsIndex j 2)))

/-- Decode one element of `msg.objects` as a (position, velocity) pair. -/
def decodePair (j : Json) : Vec3 × Vec3 :=
  (decodeVec3 (jsIndex j 0), decodeVec3 (jsIndex j 1))

/-- Decode a frame message from its JSON object and its objects array. -/
def decodeFrame (msg : Json) (objs : List Json) : FrameMsg :=
  { objects := objs.map decodePair,
    objectCount := natOr0 (jsGet msg "object_count"),
    totalCollisions := natOr0 (jsGet msg "total_num_collisions"),
    stepCollisions := natOr0 (jsGet msg "step_num_collision") }

/-- src/main.js lines 249-288: the body of the line loop for one
decoded non-empty line.  `parse` models `JSON.parse`, returning `none`
where the source would throw.  A parse failure emits a diagnostic and
leaves everything else untouched; a message with a truthy `status` is
logged and skipped; a message with an `objects` array is applied as a
frame; anything else is ignored. -/
def processLine (env : CesiumEnv) (parse : String → Option Json)
    (crit : Criteria) (cap : Nat) (st : SimState) (line : String) : SimState :=
  match parse line with
  | none => { st with diagnostics := st.diagnostics + 1 }
  | some msg =>
    if truthyOpt (jsGet msg "status") then
      { st with statusLog := st.statusLog ++ [jsGet msg "status"] }
    else
      match jsGet msg "objects" with
      | some (.arr objs) => applyFrame env crit cap st (decodeFrame msg objs)
      | _ => st

/-- The line loop over a sequence of decoded lines. -/
def processLines (env : CesiumEnv) (parse : String → Option Json)
    (crit : Criteria) (cap : Nat) (st : SimState) (lines : List String) : SimState :=
  lines.foldl (processLine env parse crit cap) st

/-- `line.trim()` on a character list: strip whitespace on both ends. -/
def trimChars (l : List Char) : List Char :=
  ((l.dropWhile Char.isWhitespace).reverse.dropWhile Char.isWhitespace).reverse

/-- Prepend a character to the first complete line of a split result,
or to the carry-over fragment when no complete line exists. -/
def consHead (c : Char) : List (List Char) × List Char → List (List Char) × List Char
  | ([], rem) => ([], c :: rem)
  | (l :: ls, rem) => ((c :: l) :: ls, rem)

/-- src/main.js lines 244-248: split a buffer at every newline.  Returns
the complete (terminator-stripped, untrimmed) lines in order and the
trailing fragment with no terminator, which the source keeps as the new
buffer. -/
def extractLines : List Char → List (List Char) × List Char
  | [] => ([], [])
  | c :: rest =>
    if c = '\n' then ([] :: (extractLines rest).1, (extractLines rest).2)
    else consHead c (extractLines rest)

/-- The lines a chunk round actually yields: each complete line is
trimmed and empty lines are suppressed (`if (!line) continue`). -/
def emittedLines (ls : List (List Char)) : List (List Char) :=
  (ls.map trimChars).filter (fun l => !l.isEmpty)

/-- src/main.js lines 233-249: the read loop state machine, fed one
chunk at a time.  `buf` is the carry-over buffer, `out` the lines
yielded so far. -/
def runFrom (buf : List Char) (out : List (List Char)) :
    List (List Char) → List (List Char) × List Char
  | [] => (out, buf)
  | chunk :: rest =>
    let r := extractLines (buf ++ chunk)
    runFrom r.2 (out ++ emittedLines r.1) rest

/-- Run the line decoder on a whole chunk sequence from an empty buffer:
the yielded lines in order, and the final carry-over buffer. -/
def runDecoder (chunks : List (List Char)) : List (List Char) × List Char :=
  runFrom [] [] chunks

/-- The stream session controller state: the number of
`startKesslerStreamFromAPI` invocations so far (each creates a fresh
`KESSLER_ABORT` controller, so this counts sessions), and the shared
mutable session state. -/
structure Controller where
  activeSession : Nat
  sim : SimState

/-- src/main.js lines 210-222: the synchronous prefix of a session
(re)start: abort the previous controller, clear the Kessler cache
(`clearKesslerObjectsOnly`), and allocate the next session. -/
def restartSession (c : Controller) : Controller :=
  { activeSession := c.activeSession + 1,
    sim := { c.sim with cache := [] } }

/-- src/main.js lines 237-289: the resumption of one `reader.read()`
issued by the session numbered `readSession`.  If the read promise
settled only after that session's `AbortController` fired, it rejects
with an AbortError and the loop exits without touching state
(`settledBeforeAbort = false`).  If it had already settled with a chunk,
the loop body runs and processes the decoded lines against the shared
state: the source tags neither the session nor the frame with any
sequence number, so the applied branch consults nothing about
`readSession`. -/
def deliverReadResult (env : CesiumEnv) (parse : String → Option Json)
    (crit : Criteria) (cap : Nat) (c : Controller) (readSession : Nat)
    (settledBeforeAbort : Bool) (lines : List String) : Controller :=
  if settledBeforeAbort then
    { c with sim := processLines env parse crit cap c.sim lines }
  else c

/-- Concrete data for witnesses: a Cesium environment whose geodetic
solver always fails and whose magnitude is the zero function. -/
def envW : CesiumEnv :=
  { fromCartesian := fun _ => none, magnitude := fun _ => 0 }

/-- Concrete data for witnesses: criteria accepting both types, the
Other country bucket, and all six altitude bins. -/
def critW : Criteria :=
  { activeTypes := ["Active", "Junk"],
    activeCountries := ["Other"],
    activeAltBins := ["0-200", "200-400", "400-800", "800-1200", "1200-2000", "2000+"] }

/-- Concrete data for counterexamples: criteria accepting nothing. -/
def critNone : Criteria :=
  { activeTypes := [], activeCountries := [], activeAltBins := [] }

/-- Concrete data for witnesses: an empty session state with slider max 5. -/
def simW : SimState :=
  { cache := [], sliderMax := 5, infoObjects := 0, infoCollisions := 0,
    infoStep := 0, visibleReported := 0, totalReported := 0,
    statusLog := [], diagnostics := 0 }

/-- Concrete data for witnesses: a cached object of the shape produced
by upserting the default-classified live dot. -/
def objW : TrackedObject :=
  { id := 0, type := "Junk", country := "Other", position := (0, 0, 0),
    altBin := "0-200", color := "DEEPSKYBLUE", pixelSize := 4,
    vx := 0, vy := 0, vz := 0, visible := false }

/-- Concrete data for witnesses: a one-object cache. -/
def cacheW : List TrackedObject :=
  upsertLiveDotFromBackend envW [] 0 (7000, 0, 0) (0, 7, 0) none none

/-- Concrete data for witnesses: a status message. -/
def statusMsgW : Json := .obj [("status", .str "simulation_started")]

/-- Concrete data for witnesses: one wire object, position then velocity. -/
def pairW : Json :=
  .arr [.arr [.num 7000, .num 0, .num 0], .arr [.num 0, .num 7, .num 0]]

/-- Concrete data for witnesses: a one-object frame message. -/
def frameMsgW : Json :=
  .obj [("objects", .arr [pairW]), ("object_count", .num 1),
        ("total_num_collisions", .num 0), ("step_num_collision", .num 0)]

/-- Concrete data for witnesses: a message carrying both a truthy
status field and an objects array. -/
def statusFrameMsgW : Json :=
  .obj [("status", .str "simulation_started"), ("objects", .arr [pairW])]

/-- Concrete data for witnesses: a parse function classifying a few
known lines, anything else being a JSON parse failure. -/
def parseW : String → Option Json := fun l =>
  if l = "status" then some statusMsgW
  else if l = "frame" then some frameMsgW
  else if l = "both" then some statusFrameMsgW
  else none

/-- Concrete data for witnesses: a controller before any session. -/
def ctrlW : Controller := { activeSession := 0, sim := simW }

/-- Concrete data for the C1 counterexample: a one-object cache with
slider max 5. -/
def simC1 : SimState :=
  { cache := [objW], sliderMax := 5, infoObjects := 0, infoCollisions := 0,
    infoStep := 0, visibleReported := 0, totalReported := 0,
    statusLog := [], diagnostics := 0 }

/-- Concrete data for the C1 witness: a two-object cache with slider
max 5. -/
def simC2 : SimState :=
  { cache := [objW, objW], sliderMax := 5, infoObjects := 0,
    infoCollisions := 0, infoStep := 0, visibleReported := 0,
    totalReported := 0, statusLog := [], diagnostics := 0 }

/-- Concrete data for the decoder witness: two records and a fragment. -/
def recsW : List (List Char) := [['o', 'k'], ['g', 'o']]

/-- Concrete data for the decoder witness: the stream in one chunk. -/
def chunksOneW : List (List Char) :=
  [['o', 'k', '\n', 'g', 'o', '\n', 'x']]

/-- Concrete data for the decoder witness: the same stream cut at other
offsets, one cut landing exactly on a terminator boundary. -/
def chunksManyW : List (List Char) :=
  [['o'], ['k', '\n'], ['g', 'o', '\n'], ['x']]

/-- The fields of an entity that one upsert of a sample at `posKm`
determines: position, altitude bin and color, identical for the
creation and the update branch. -/
def matchesSample (env : CesiumEnv) (posKm : Vec3) (e : TrackedObject) : Prop :=
  e.position = (kmEciToCartographicMeters env posKm).1 ∧
  e.altBin = altitudeToBin (.val (kmEciToCartographicMeters env posKm).2.height) ∧
  e.color = altitudeToColorMeters (.val (kmEciToCartographicMeters env posKm).2.height)

/-- The cache already reflects the sample at `posKm` for `id`: some
entry carries the id, and every entry carrying it has the
sample-determined fields. -/
def entryMatches (env : CesiumEnv) (id : Nat) (posKm : Vec3)
    (cache : List TrackedObject) : Prop :=
  (∃ e ∈ cache, e.id = id) ∧
  ∀ e ∈ cache, e.id = id → matchesSample env posKm e

/-- Claim C10: `altitudeToBin` is total into the six bin labels: every
input yields one of the six strings, every finite negative altitude
yields the lowest bin, and a NaN altitude falls through every comparison
into the highest bin. -/
theorem altitudeToBin_total :
    (∀ h : JsNum, altitudeToBin h ∈
      ["0-200", "200-400", "400-800", "800-1200", "1200-2000", "2000+"]) ∧
    (∀ x : ℚ, x < 0 → altitudeToBin (.val x) = "0-200") ∧
    altitudeToBin .nan = "2000+" := by
  refine ⟨?_, ?_, rfl⟩
  · intro h
    cases h with
    | nan => simp [altitudeToBin, JsNum.div1000, JsNum.ltc]
    | inf => simp [altitudeToBin, JsNum.div1000, JsNum.ltc]
    | ninf => simp [altitudeToBin, JsNum.div1000, JsNum.ltc]
    | val x =>
      simp only [altitudeToBin, JsNum.div1000, JsNum.ltc]
      split_ifs <;> simp
  · intro x hx
    have hq : x / 1000 < 200 :=
      lt_trans (div_neg_of_neg_of_pos hx (by norm_num)) (by norm_num)
    simp [altitudeToBin, JsNum.div1000, JsNum.ltc, hq]

/-- Witness for C10 at a concrete negative altitude. -/
theorem altitudeToBin_total_witness :
    ((-5 : ℚ) < 0) ∧ altitudeToBin (.val (-5)) = "0-200" :=
  ⟨by norm_num, altitudeToBin_total.2.1 (-5) (by norm_num)⟩

/-- Claim C7: the coordinate transform is total by construction (it
returns the meter-scaled vector on every input), and when the geodetic
projection fails it returns a cartographic value whose height is the
vector magnitude minus the reference body radius. -/
theorem kmEciToCartographicMeters_fallback (env : CesiumEnv) (posKm : Vec3) :
    (kmEciToCartographicMeters env posKm).1 = toCartMeters posKm ∧
    (env.fromCartesian (toCartMeters posKm) = none →
      (kmEciToCartographicMeters env posKm).2 =
        { longitude := 0, latitude := 0,
          height := env.magnitude (toCartMeters posKm) - wgs84MaximumRadius }) := by
  constructor
  · unfold kmEciToCartographicMeters
    cases henv : env.fromCartesian (toCartMeters posKm) <;> simp [henv]
  · intro h
    unfold kmEciToCartographicMeters
    simp [h]

/-- Witness for C7: the zero vector under an always-failing projection. -/
theorem kmEciToCartographicMeters_fallback_witness :
    envW.fromCartesian (toCartMeters (0, 0, 0)) = none ∧
    (kmEciToCartographicMeters envW (0, 0, 0)).2 =
      { longitude := 0, latitude := 0,
        height := envW.magnitude (toCartMeters (0, 0, 0)) - wgs84MaximumRadius } :=
  ⟨rfl, (kmEciToCartographicMeters_fallback envW (0, 0, 0)).2 rfl⟩

/-- Counterexample for C4: upserting a fresh id into an empty cache
creates its single entity with the show flag true (the Cesium default,
since the source passes no show option), not false as claimed. -/
theorem upsert_created_visible_cex :
    (upsertLiveDotFromBackend envW [] 0 (7000, 0, 0) (0, 7, 0) none none).map
        (fun e => e.visible) = [true] ∧
    ([true] : List Bool) ≠ [false] :=
  ⟨rfl, by decide⟩

/-- Claim C4 (amended): the show flags after an upsert are exactly the
old flags when the id already exists, and the old flags followed by
`true` (the entity creation default) when the id is fresh; in
particular reconciliation never rewrites the show flag of an existing
entity, which is written only by the filter engine. -/
theorem upsert_visible_flags (env : CesiumEnv) (cache : List TrackedObject)
    (id : Nat) (posKm velKmps : Vec3) (mt mc : Option String) :
    (upsertLiveDotFromBackend env cache id posKm velKmps mt mc).map
        (fun e => e.visible) =
      if cache.any (fun e => e.id = id) then cache.map (fun e => e.visible)
      else cache.map (fun e => e.visible) ++ [true] := by
  unfold upsertLiveDotFromBackend
  split
  · rw [List.map_map]
    refine List.map_congr_left ?_
    intro e _
    by_cases h : e.id = id <;> simp [h, Function.comp, updatedEntity]
  · simp [createdEntity]

/-- Counterexample for C5: a second upsert of an existing id with a new
velocity sample leaves the stored velocity at its first-seen value; the
update branch does not write the velocity. -/
theorem upsert_velocity_cex :
    (upsertLiveDotFromBackend envW
        (upsertLiveDotFromBackend envW [] 0 (7000, 0, 0) (0, 0, 0) none none)
        0 (7000, 0, 0) (1, 2, 3) none none).map
        (fun e => (e.vx, e.vy, e.vz)) = [((0 : ℚ), (0 : ℚ), (0 : ℚ))] ∧
    (((0 : ℚ), (0 : ℚ), (0 : ℚ)) : Vec3) ≠ ((1 : ℚ), (2 : ℚ), (3 : ℚ)) :=
  ⟨rfl, by decide⟩

/-- Claim C5 (amended): an upsert on an id already in the cache rewrites
every matching entry in place with the new position and the derived
altitude bin and color; type, country, pixel size, the velocity, and
the show flag keep their first-seen values. -/
theorem upsert_update_in_place (env : CesiumEnv) (cache : List TrackedObject)
    (id : Nat) (posKm velKmps : Vec3) (mt mc : Option String)
    (h : cache.any (fun e => e.id = id) = true) :
    upsertLiveDotFromBackend env cache id posKm velKmps mt mc =
      cache.map (fun e => if e.id = id then updatedEntity env posKm e else e) := by
  unfold upsertLiveDotFromBackend
  rw [if_pos h]

/-- Witness for C5 (amended) on a concrete one-object cache. -/
theorem upsert_update_in_place_witness :
    cacheW.any (fun e => e.id = 0) = true ∧
    upsertLiveDotFromBackend envW cacheW 0 (1, 0, 0) (5, 5, 5) none none =
      cacheW.map (fun e => if e.id = 0 then updatedEntity envW (1, 0, 0) e else e) :=
  ⟨rfl, upsert_update_in_place envW cacheW 0 (1, 0, 0) (5, 5, 5) none none rfl⟩

/-- Claim C9: a line parsing to an object with both a truthy status
field and an objects array is handled by the status branch alone: the
status is logged and the rest of the state, the cache included, is
untouched — the objects array is ignored. -/
theorem status_priority (env : CesiumEnv) (parse : String → Option Json)
    (crit : Criteria) (cap : Nat) (st : SimState) (line : String)
    (msg v : Json) (objs : List Json)
    (h1 : parse line = some msg)
    (h2 : jsGet msg "status" = some v)
    (h3 : truthy v = true)
    (h4 : jsGet msg "objects" = some (.arr objs)) :
    processLine env parse crit cap st line =
      { st with statusLog := st.statusLog ++ [some v] } := by
  simp [processLine, h1, h2, truthyOpt, h3]

/-- Witness for C9 on the concrete combined message. -/
theorem status_priority_witness :
    parseW "both" = some statusFrameMsgW ∧
    processLine envW parseW critW 10 simW "both" =
      { simW with statusLog := simW.statusLog ++ [some (.str "simulation_started")] } :=
  ⟨rfl, status_priority envW parseW critW 10 simW "both" statusFrameMsgW
    (.str "simulation_started") [pairW] rfl rfl rfl rfl⟩

/-- Claim C8: a line failing to parse emits a diagnostic and leaves the
rest of the state, the cache included, unchanged; processing then
continues, and a following well-formed status line is still classified
correctly — the whole two-line run changes only the diagnostics counter
and the status log. -/
theorem malformed_line_skipped (env : CesiumEnv) (parse : String → Option Json)
    (crit : Criteria) (cap : Nat) (st : SimState) (l1 l2 : String)
    (msg v : Json)
    (h1 : parse l1 = none)
    (h2 : parse l2 = some msg)
    (h3 : jsGet msg "status" = some v)
    (h4 : truthy v = true) :
    processLines env parse crit cap st [l1, l2] =
      { st with diagnostics := st.diagnostics + 1,
                statusLog := st.statusLog ++ [some v] } ∧
    (processLine env parse crit cap st l1).cache = st.cache := by
  have e1 : processLine env parse crit cap st l1 =
      { st with diagnostics := st.diagnostics + 1 } := by
    simp [processLine, h1]
  have ht : truthyOpt (jsGet msg "status") = true := by rw [h3]; exact h4
  have e2 : ∀ s : SimState, processLine env parse crit cap s l2 =
      { s with statusLog := s.statusLog ++ [some v] } := by
    intro s
    simp [processLine, h2, h3, truthyOpt, h4]
  constructor
  · show processLine env parse crit cap (processLine env parse crit cap st l1) l2 = _
    rw [e1, e2]
  · rw [e1]

/-- Witness for C8: a bad line followed by the concrete status line. -/
theorem malformed_line_skipped_witness :
    parseW "not json" = none ∧
    processLines envW parseW critW 10 simW ["not json", "status"] =
      { simW with diagnostics := simW.diagnostics + 1,
                  statusLog := simW.statusLog ++ [some (.str "simulation_started")] } :=
  ⟨rfl, (malformed_line_skipped envW parseW critW 10 simW "not json" "status"
    statusMsgW (.str "simulation_started") rfl rfl rfl rfl).1⟩

/-- Counterexample for C3: the source has no session sequence number.
After a restart (active session 1), a read result issued by the prior
session 0 whose promise had already settled when the abort fired is
still processed by the loop body and mutates the freshly cleared cache,
even though its session tag differs from the active one. -/
theorem stale_read_applied_cex :
    (0 : Nat) ≠ (restartSession ctrlW).activeSession ∧
    (deliverReadResult envW parseW critW 10 (restartSession ctrlW) 0 true
        ["frame"]).sim.cache ≠ (restartSession ctrlW).sim.cache := by
  constructor
  · decide
  · intro hEq
    have h1 : (deliverReadResult envW parseW critW 10 (restartSession ctrlW) 0 true
        ["frame"]).sim.cache.length = 1 := by with_unfolding_all decide
    rw [hEq] at h1
    exact absurd h1 (by decide)

/-- Claim C3 (amended): the only stale-read protection in the source is
abort rejection: a read that settles after its session's abort is
discarded without touching state, while a read result that had already
settled is applied identically whatever session issued it — the applied
branch consults no sequence number. -/
theorem deliverReadResult_no_session_check (env : CesiumEnv)
    (parse : String → Option Json) (crit : Criteria) (cap : Nat)
    (c : Controller) (g : Nat) (lines : List String) :
    deliverReadResult env parse crit cap c g false lines = c ∧
    deliverReadResult env parse crit cap c g true lines =
      deliverReadResult env parse crit cap c c.activeSession true lines :=
  ⟨rfl, rfl⟩

/-- Marking an entity changes no field the eligibility test reads. -/
theorem passesFilters_set_visible (crit : Criteria) (e : TrackedObject) (b : Bool) :
    passesFilters crit { e with visible := b } = passesFilters crit e := rfl

/-- The filter pass marks exactly `min eligible (cap - shown)` entities
visible, where `eligible` counts the entities passing the criteria. -/
theorem applyFiltersList_countP (crit : Criteria) (cap : Nat) :
    ∀ (l : List TrackedObject) (shown : Nat),
      (applyFiltersList crit cap shown l).1.countP (fun e => e.visible) =
        min (l.countP (fun e => passesFilters crit e)) (cap - shown) := by
  intro l
  induction l with
  | nil => intro shown; simp [applyFiltersList]
  | cons a rest ih =>
    intro shown
    by_cases hp : passesFilters crit a = true
    · by_cases hs : shown < cap
      · have hpos : passesFilters crit a = true ∧ shown < cap := ⟨hp, hs⟩
        simp only [applyFiltersList]
        rw [if_pos hpos]
        simp only [List.countP_cons, ih (shown + 1), hp]
        simp
        omega
      · have hneg : ¬(passesFilters crit a = true ∧ shown < cap) := fun h => hs h.2
        simp only [applyFiltersList]
        rw [if_neg hneg]
        simp only [List.countP_cons, ih shown, hp]
        simp
        omega
    · have hneg : ¬(passesFilters crit a = true ∧ shown < cap) := fun h => hp h.1
      simp only [applyFiltersList]
      rw [if_neg hneg]
      simp only [List.countP_cons, ih shown, hp]
      simp

/-- The filter pass marks an entity visible only if it passes the
criteria. -/
theorem applyFiltersList_visible_passes (crit : Criteria) (cap : Nat) :
    ∀ (l : List TrackedObject) (shown : Nat) (e : TrackedObject),
      e ∈ (applyFiltersList crit cap shown l).1 → e.visible = true →
      passesFilters crit e = true := by
  intro l
  induction l with
  | nil => intro shown e he; simp [applyFiltersList] at he
  | cons a rest ih =>
    intro shown e he hv
    by_cases hc : passesFilters crit a = true ∧ shown < cap
    · simp only [applyFiltersList, if_pos hc] at he
      rcases List.mem_cons.mp he with h | h
      · subst h; rw [passesFilters_set_visible]; exact hc.1
      · exact ih (shown + 1) e h hv
    · simp only [applyFiltersList, if_neg hc] at he
      rcases List.mem_cons.mp he with h | h
      · subst h; simp at hv
      · exact ih shown e h hv

/-- Claim C1 (amended): one recompute marks an object visible only if
it passes all three membership tests, marks exactly
`min eligibleCount capacity` objects visible, and reports
`visible = min eligibleCount capacity`; the reported total, however, is
the slider max attribute (the last reported `object_count`), not the
eligible count. -/
theorem applyFilters_recompute (crit : Criteria) (cap : Nat) (st : SimState) :
    (∀ e ∈ (applyFilters crit cap st).cache, e.visible = true →
        passesFilters crit e = true) ∧
    (applyFilters crit cap st).cache.countP (fun e => e.visible) =
      min (st.cache.countP (fun e => passesFilters crit e)) cap ∧
    (applyFilters crit cap st).visibleReported =
      min (st.cache.countP (fun e => passesFilters crit e)) cap ∧
    (applyFilters crit cap st).totalReported = st.sliderMax := by
  have hc : (applyFilters crit cap st).cache =
      (applyFiltersList crit cap 0 st.cache).1 := rfl
  refine ⟨?_, ?_, ?_, rfl⟩
  · intro e he hv
    exact applyFiltersList_visible_passes crit cap st.cache 0 e (hc ▸ he) hv
  · rw [hc, applyFiltersList_countP]
    simp
  · show (applyFiltersList crit cap 0 st.cache).1.countP (fun e => e.visible) = _
    rw [applyFiltersList_countP]
    simp

/-- Witness for C1 (amended): two eligible objects at capacity one give
one visible and a reported total of the slider max. -/
theorem applyFilters_recompute_witness :
    (applyFilters critW 1 simC2).visibleReported = 1 ∧
    (applyFilters critW 1 simC2).totalReported = 5 := by
  have h := applyFilters_recompute critW 1 simC2
  exact ⟨by rw [h.2.2.1]; decide, by rw [h.2.2.2]; rfl⟩

/-- Counterexample for C1 as stated: with no eligible object the
reported total is the slider max (5), not the eligible count (0). -/
theorem counter_total_cex :
    (applyFilters critNone 10 simC1).totalReported = 5 ∧
    simC1.cache.countP (fun e => passesFilters critNone e) = 0 ∧
    (5 : Nat) ≠ 0 := by decide

/-- A buffer without a terminator extracts no line: it is all carry-over. -/
theorem extractLines_no_newline (l : List Char) (h : '\n' ∉ l) :
    extractLines l = ([], l) := by
  induction l with
  | nil => rfl
  | cons c rest ih =>
    have hc : ¬(c = '\n') := fun hc => h (by rw [hc]; exact List.mem_cons_self _ _)
    have hr : '\n' ∉ rest := fun hm => h (List.mem_cons_of_mem c hm)
    simp only [extractLines, if_neg hc, ih hr, consHead]

/-- The carry-over buffer left by an extraction never contains a
terminator. -/
theorem extractLines_buffer_no_newline (l : List Char) :
    '\n' ∉ (extractLines l).2 := by
  induction l with
  | nil => simp [extractLines]
  | cons c rest ih =>
    by_cases hc : c = '\n'
    · simp only [extractLines, if_pos hc]
      exact ih
    · simp only [extractLines, if_neg hc]
      rcases h : extractLines rest with ⟨ls, rem⟩
      rw [h] at ih
      cases ls with
      | nil =>
        simp only [consHead]
        intro hm
        rcases List.mem_cons.mp hm with h1 | h1
        · exact hc h1.symm
        · exact ih h1
      | cons l1 ls1 => simpa [consHead] using ih

/-- Extraction is a buffer-homomorphism over concatenation: extracting
from `a ++ b` is extracting from `a`, then extracting from the
carry-over of `a` joined with `b`. -/
theorem extractLines_append (a b : List Char) :
    extractLines (a ++ b) =
      ((extractLines a).1 ++ (extractLines ((extractLines a).2 ++ b)).1,
       (extractLines ((extractLines a).2 ++ b)).2) := by
  induction a with
  | nil => simp [extractLines]
  | cons c t ih =>
    have hl : (c :: t) ++ b = c :: (t ++ b) := rfl
    rw [hl]
    rcases h1 : extractLines t with ⟨l1, r1⟩
    rw [h1] at ih
    dsimp only at ih
    by_cases hc : c = '\n'
    · rw [show extractLines (c :: (t ++ b)) =
            ([] :: (extractLines (t ++ b)).1, (extractLines (t ++ b)).2) from by
          simp [extractLines, hc], ih]
      rw [show extractLines (c :: t) =
            ([] :: (extractLines t).1, (extractLines t).2) from by
          simp [extractLines, hc], h1]
      simp
    · rw [show extractLines (c :: (t ++ b)) = consHead c (extractLines (t ++ b)) from by
          simp [extractLines, hc], ih]
      rw [show extractLines (c :: t) = consHead c (extractLines t) from by
          simp [extractLines, hc], h1]
      cases l1 with
      | nil =>
        dsimp only [consHead]
        rw [show ((c :: r1) ++ b) = c :: (r1 ++ b) from rfl]
        rw [show extractLines (c :: (r1 ++ b)) = consHead c (extractLines (r1 ++ b)) from by
            simp [extractLines, hc]]
        rcases h2 : extractLines (r1 ++ b) with ⟨l2, r2⟩
        cases l2 with
        | nil => simp [consHead]
        | cons y ys => simp [consHead]
      | cons x xs =>
        simp [consHead]

/-- The emitted lines distribute over appending split results. -/
theorem emittedLines_append (a b : List (List Char)) :
    emittedLines (a ++ b) = emittedLines a ++ emittedLines b := by
  simp [emittedLines]

/-- The decoder run is determined by the concatenation of its chunks:
starting from a terminator-free buffer, it yields the emitted lines of
the whole joined stream and keeps its trailing fragment. -/
theorem runFrom_spec (chunks : List (List Char)) :
    ∀ (buf : List Char) (out : List (List Char)), '\n' ∉ buf →
      runFrom buf out chunks =
        (out ++ emittedLines (extractLines (buf ++ chunks.flatten)).1,
         (extractLines (buf ++ chunks.flatten)).2) := by
  induction chunks with
  | nil =>
    intro buf out hbuf
    rw [show (List.flatten ([] : List (List Char))) = [] from rfl]
    rw [List.append_nil, extractLines_no_newline buf hbuf]
    simp [runFrom, emittedLines]
  | cons ch rest ih =>
    intro buf out hbuf
    show runFrom (extractLines (buf ++ ch)).2
        (out ++ emittedLines (extractLines (buf ++ ch)).1) rest = _
    rw [ih (extractLines (buf ++ ch)).2 _ (extractLines_buffer_no_newline _)]
    rw [show (ch :: rest).flatten = ch ++ rest.flatten from rfl]
    rw [show buf ++ (ch ++ rest.flatten) = (buf ++ ch) ++ rest.flatten from by
      simp]
    rw [extractLines_append (buf ++ ch) rest.flatten]
    simp [emittedLines_append]

/-- Extracting a newline-free record followed by its terminator yields
that record as the first complete line. -/
theorem extractLines_record (r : List Char) (s : List Char) (h : '\n' ∉ r) :
    extractLines (r ++ '\n' :: s) =
      (r :: (extractLines s).1, (extractLines s).2) := by
  induction r with
  | nil =>
    simp [extractLines]
  | cons c t ih =>
    have hc : ¬(c = '\n') := fun hc => h (by rw [hc]; exact List.mem_cons_self _ _)
    have ht : '\n' ∉ t := fun hm => h (List.mem_cons_of_mem c hm)
    rw [show ((c :: t) ++ '\n' :: s) = c :: (t ++ '\n' :: s) from rfl]
    rw [show extractLines (c :: (t ++ '\n' :: s)) =
          consHead c (extractLines (t ++ '\n' :: s)) from by
        simp [extractLines, hc]]
    rw [ih ht]
    simp [consHead]

/-- Extracting a stream of terminated newline-free records followed by a
trailing terminator-free fragment yields exactly the records as complete
lines and the fragment as carry-over. -/
theorem extractLines_records (recs : List (List Char)) (frag : List Char)
    (hrec : ∀ r ∈ recs, '\n' ∉ r) (hfrag : '\n' ∉ frag) :
    extractLines ((recs.map (fun r => r ++ ['\n'])).flatten ++ frag) =
      (recs, frag) := by
  induction recs with
  | nil => simpa using extractLines_no_newline frag hfrag
  | cons r rest ih =>
    have hr : '\n' ∉ r := hrec r (List.mem_cons_self _ _)
    have hrest : ∀ x ∈ rest, '\n' ∉ x := fun x hx => hrec x (List.mem_cons_of_mem _ hx)
    rw [show ((r :: rest).map (fun r => r ++ ['\n'])).flatten =
          (r ++ ['\n']) ++ (rest.map (fun r => r ++ ['\n'])).flatten from rfl]
    rw [show ((r ++ ['\n']) ++ (rest.map (fun r => r ++ ['\n'])).flatten) ++ frag =
          r ++ '\n' :: ((rest.map (fun r => r ++ ['\n'])).flatten ++ frag) from by
      simp]
    rw [extractLines_record r _ hr, ih hrest]

/-- Claim C2: for a stream of complete newline-terminated records (each
terminator-free and trimming to a non-empty line) followed by an
unterminated fragment, the decoder yields exactly the trimmed records in
order under every chunking of the stream, two chunkings yield identical
results, and the fragment is carried in the buffer, never emitted. -/
theorem frameLineDecoder_chunking_invariant
    (recs : List (List Char)) (frag : List Char) (cs1 cs2 : List (List Char))
    (hrec : ∀ r ∈ recs, '\n' ∉ r ∧ trimChars r ≠ [])
    (hfrag : '\n' ∉ frag)
    (h1 : cs1.flatten = (recs.map (fun r => r ++ ['\n'])).flatten ++ frag)
    (h2 : cs2.flatten = (recs.map (fun r => r ++ ['\n'])).flatten ++ frag) :
    (runDecoder cs1).1 = recs.map trimChars ∧
    runDecoder cs1 = runDecoder cs2 ∧
    (runDecoder cs1).2 = frag := by
  have key : ∀ cs : List (List Char),
      cs.flatten = (recs.map (fun r => r ++ ['\n'])).flatten ++ frag →
      runDecoder cs = (recs.map trimChars, frag) := by
    intro cs hcs
    show runFrom [] [] cs = _
    rw [runFrom_spec cs [] [] (by simp), hcs]
    rw [show ([] : List Char) ++ ((recs.map (fun r => r ++ ['\n'])).flatten ++ frag) =
          (recs.map (fun r => r ++ ['\n'])).flatten ++ frag from by simp]
    rw [extractLines_records recs frag (fun r hr => (hrec r hr).1) hfrag]
    have hkeep : emittedLines recs = recs.map trimChars := by
      rw [emittedLines, List.filter_eq_self.mpr]
      intro a ha
      rcases List.mem_map.mp ha with ⟨r, hr, hEq⟩
      subst hEq
      simpa using (hrec r hr).2
    rw [show (recs, frag).1 = recs from rfl]
    rw [hkeep]
    simp
  have k1 := key cs1 h1
  have k2 := key cs2 h2
  refine ⟨by rw [k1], by rw [k1, k2], by rw [k1]⟩

/-- Witness for C2: a two-record stream with a trailing fragment under
two chunkings, one cut landing exactly on a terminator. -/
theorem frameLineDecoder_chunking_invariant_witness :
    (runDecoder chunksOneW).1 = recsW.map trimChars ∧
    runDecoder chunksOneW = runDecoder chunksManyW ∧
    (runDecoder chunksOneW).2 = ['x'] :=
  frameLineDecoder_chunking_invariant recsW ['x'] chunksOneW chunksManyW
    (by decide) (by decide) (by decide) (by decide)

/-- Mapping a function that fixes every member of a list is the
identity. -/
theorem map_id_of_mem {α : Type} (l : List α) (f : α → α)
    (h : ∀ x ∈ l, f x = x) : l.map f = l := by
  induction l with
  | nil => rfl
  | cons a t ih =>
    rw [List.map_cons, h a (List.mem_cons_self _ _),
        ih (fun x hx => h x (List.mem_cons_of_mem _ hx))]

/-- The id-membership test of the upsert in terms of membership. -/
theorem any_id_eq (cache : List TrackedObject) (id : Nat) :
    cache.any (fun e => e.id = id) = true ↔ ∃ e ∈ cache, e.id = id := by
  simp [List.any_eq_true]

/-- Updating an entity whose fields already reflect the sample is the
identity. -/
theorem updatedEntity_self (env : CesiumEnv) (posKm : Vec3) (e : TrackedObject)
    (h : matchesSample env posKm e) : updatedEntity env posKm e = e := by
  cases e
  obtain ⟨h1, h2, h3⟩ := h
  dsimp only at h1 h2 h3
  simp only [updatedEntity]
  rw [← h1, ← h2, ← h3]

/-- An upsert whose sample the cache already reflects leaves the cache
unchanged. -/
theorem upsert_noop (env : CesiumEnv) (cache : List TrackedObject) (id : Nat)
    (posKm velKmps : Vec3) (mt mc : Option String)
    (h : entryMatches env id posKm cache) :
    upsertLiveDotFromBackend env cache id posKm velKmps mt mc = cache := by
  obtain ⟨hex, hall⟩ := h
  have hany : cache.any (fun e => e.id = id) = true := (any_id_eq cache id).mpr hex
  unfold upsertLiveDotFromBackend
  rw [if_pos hany]
  apply map_id_of_mem
  intro e he
  by_cases hid : e.id = id
  · rw [if_pos hid, updatedEntity_self env posKm e (hall e he hid)]
  · rw [if_neg hid]

/-- After an upsert the cache reflects the sample just applied, in both
the creation and the update branch. -/
theorem upsert_establishes (env : CesiumEnv) (cache : List TrackedObject)
    (id : Nat) (posKm velKmps : Vec3) (mt mc : Option String) :
    entryMatches env id posKm
      (upsertLiveDotFromBackend env cache id posKm velKmps mt mc) := by
  unfold upsertLiveDotFromBackend
  by_cases hany : cache.any (fun e => e.id = id) = true
  · rw [if_pos hany]
    obtain ⟨e0, he0, hid0⟩ := (any_id_eq cache id).mp hany
    constructor
    · refine ⟨updatedEntity env posKm e0, ?_, hid0⟩
      refine List.mem_map.mpr ⟨e0, he0, ?_⟩
      simp [hid0]
    · intro e' he' hid'
      rcases List.mem_map.mp he' with ⟨e, he, hEq⟩
      by_cases hid : e.id = id
      · simp only [if_pos hid] at hEq
        rw [← hEq]
        exact ⟨rfl, rfl, rfl⟩
      · simp only [if_neg hid] at hEq
        exact absurd (hEq ▸ hid') hid
  · rw [if_neg hany]
    constructor
    · exact ⟨createdEntity env id posKm velKmps mt mc, by simp, rfl⟩
    · intro e' he' hid'
      rcases List.mem_append.mp he' with hmem | hmem
      · exact absurd ((any_id_eq cache id).mpr ⟨e', hmem, hid'⟩) hany
      · have he'' : e' = createdEntity env id posKm velKmps mt mc := by
          simpa using hmem
        subst he''
        exact ⟨rfl, rfl, rfl⟩

/-- An upsert for a different id preserves the reflected sample of an
entry. -/
theorem upsert_preserves_other (env : CesiumEnv) (cache : List TrackedObject)
    (id j : Nat) (posKm velKmps q : Vec3) (mt mc : Option String)
    (hne : j ≠ id) (h : entryMatches env j q cache) :
    entryMatches env j q
      (upsertLiveDotFromBackend env cache id posKm velKmps mt mc) := by
  obtain ⟨⟨e0, he0, hid0⟩, hall⟩ := h
  unfold upsertLiveDotFromBackend
  by_cases hany : cache.any (fun e => e.id = id) = true
  · rw [if_pos hany]
    constructor
    · refine ⟨e0, List.mem_map.mpr ⟨e0, he0, ?_⟩, hid0⟩
      have hne0 : ¬(e0.id = id) := by rw [hid0]; exact hne
      simp [hne0]
    · intro e' he' hid'
      rcases List.mem_map.mp he' with ⟨e, he, hEq⟩
      by_cases hid : e.id = id
      · exfalso
        apply hne
        have hd : e'.id = id := by
          rw [← hEq]
          simp [hid, updatedEntity]
        exact hid'.symm.trans hd
      · simp only [if_neg hid] at hEq
        subst hEq
        exact hall e he hid'
  · rw [if_neg hany]
    constructor
    · exact ⟨e0, List.mem_append_left _ he0, hid0⟩
    · intro e' he' hid'
      rcases List.mem_append.mp he' with hmem | hmem
      · exact hall e' hmem hid'
      · exfalso
        apply hne
        have he'' : e' = createdEntity env id posKm velKmps mt mc := by
          simpa using hmem
        rw [← hid', he'']
        rfl

/-- The object loop touches only ids at or above its running index. -/
theorem applyObjects_preserves_lt (env : CesiumEnv) (l : List (Vec3 × Vec3)) :
    ∀ (i : Nat) (cache : List TrackedObject) (j : Nat) (q : Vec3),
      j < i → entryMatches env j q cache →
      entryMatches env j q (applyObjects env l i cache) := by
  induction l with
  | nil => intro i cache j q _ h; exact h
  | cons p rest ih =>
    intro i cache j q hj h
    exact ih (i + 1) _ j q (Nat.lt_succ_of_lt hj)
      (upsert_preserves_other env cache i j p.1 p.2 q none none
        (Nat.ne_of_lt hj) h)

/-- After the object loop every sample of the frame is reflected at its
index id. -/
theorem applyObjects_establishes (env : CesiumEnv) (l : List (Vec3 × Vec3)) :
    ∀ (i : Nat) (cache : List TrackedObject) (k : Nat) (hk : k < l.length),
      entryMatches env (i + k) (l.get ⟨k, hk⟩).1 (applyObjects env l i cache) := by
  induction l with
  | nil => intro i cache k hk; exact absurd hk (by simp)
  | cons p rest ih =>
    intro i cache k hk
    cases k with
    | zero =>
      have h0 := upsert_establishes env cache i p.1 p.2 none none
      have hpr := applyObjects_preserves_lt env rest (i + 1)
        (upsertLiveDotFromBackend env cache i p.1 p.2 none none) i p.1
        (Nat.lt_succ_self i) h0
      simpa using hpr
    | succ k =>
      have hk' : k < rest.length := by simpa using hk
      have hres := ih (i + 1)
        (upsertLiveDotFromBackend env cache i p.1 p.2 none none) k hk'
      have heq : i + 1 + k = i + (k + 1) := by omega
      rw [heq] at hres
      simpa using hres

/-- The object loop is the identity on a cache already reflecting every
sample of the frame at its index id. -/
theorem applyObjects_noop (env : CesiumEnv) (l : List (Vec3 × Vec3)) :
    ∀ (i : Nat) (cache : List TrackedObject),
      (∀ (k : Nat) (hk : k < l.length),
        entryMatches env (i + k) (l.get ⟨k, hk⟩).1 cache) →
      applyObjects env l i cache = cache := by
  induction l with
  | nil => intro i cache _; rfl
  | cons p rest ih =>
    intro i cache h
    have h0 := h 0 (by simp)
    have hup : upsertLiveDotFromBackend env cache i p.1 p.2 none none = cache :=
      upsert_noop env cache i p.1 p.2 none none (by simpa using h0)
    show applyObjects env rest (i + 1)
        (upsertLiveDotFromBackend env cache i p.1 p.2 none none) = cache
    rw [hup]
    apply ih (i + 1)
    intro k hk
    have hres := h (k + 1) (by simpa using hk)
    have heq : i + (k + 1) = i + 1 + k := by omega
    rw [heq] at hres
    simpa using hres

/-- Every entity of a filter pass result is a member of the input with
its show flag rewritten. -/
theorem applyFiltersList_mem (crit : Criteria) (cap : Nat) :
    ∀ (l : List TrackedObject) (k : Nat) (e' : TrackedObject),
      e' ∈ (applyFiltersList crit cap k l).1 →
      ∃ e ∈ l, ∃ b : Bool, e' = { e with visible := b } := by
  intro l
  induction l with
  | nil => intro k e' h; simp [applyFiltersList] at h
  | cons a rest ih =>
    intro k e' h
    by_cases hc : passesFilters crit a = true ∧ k < cap
    · simp only [applyFiltersList, if_pos hc] at h
      rcases List.mem_cons.mp h with h1 | h1
      · exact ⟨a, List.mem_cons_self _ _, true, h1⟩
      · rcases ih (k + 1) e' h1 with ⟨e, he, b, hb⟩
        exact ⟨e, List.mem_cons_of_mem _ he, b, hb⟩
    · simp only [applyFiltersList, if_neg hc] at h
      rcases List.mem_cons.mp h with h1 | h1
      · exact ⟨a, List.mem_cons_self _ _, false, h1⟩
      · rcases ih k e' h1 with ⟨e, he, b, hb⟩
        exact ⟨e, List.mem_cons_of_mem _ he, b, hb⟩

/-- Every member of the input to a filter pass survives with some show
flag. -/
theorem applyFiltersList_mem_rev (crit : Criteria) (cap : Nat) :
    ∀ (l : List TrackedObject) (k : Nat) (e : TrackedObject), e ∈ l →
      ∃ b : Bool,
        ({ e with visible := b } : TrackedObject) ∈
          (applyFiltersList crit cap k l).1 := by
  intro l
  induction l with
  | nil => intro k e h; exact absurd h (by simp)
  | cons a rest ih =>
    intro k e h
    by_cases hc : passesFilters crit a = true ∧ k < cap
    · simp only [applyFiltersList, if_pos hc]
      rcases List.mem_cons.mp h with h1 | h1
      · exact ⟨true, by rw [h1]; exact List.mem_cons_self _ _⟩
      · rcases ih (k + 1) e h1 with ⟨b, hb⟩
        exact ⟨b, List.mem_cons_of_mem _ hb⟩
    · simp only [applyFiltersList, if_neg hc]
      rcases List.mem_cons.mp h with h1 | h1
      · exact ⟨false, by rw [h1]; exact List.mem_cons_self _ _⟩
      · rcases ih k e h1 with ⟨b, hb⟩
        exact ⟨b, List.mem_cons_of_mem _ hb⟩

/-- A filter recompute preserves every reflected sample: it rewrites
only show flags. -/
theorem applyFilters_preserves_match (env : CesiumEnv) (id : Nat) (posKm : Vec3)
    (crit : Criteria) (cap : Nat) (st : SimState)
    (h : entryMatches env id posKm st.cache) :
    entryMatches env id posKm (applyFilters crit cap st).cache := by
  obtain ⟨⟨e0, he0, hid0⟩, hall⟩ := h
  have hcache : (applyFilters crit cap st).cache =
      (applyFiltersList crit cap 0 st.cache).1 := rfl
  rw [hcache]
  constructor
  · rcases applyFiltersList_mem_rev crit cap st.cache 0 e0 he0 with ⟨b, hb⟩
    exact ⟨{ e0 with visible := b }, hb, hid0⟩
  · intro e' he' hid'
    rcases applyFiltersList_mem crit cap st.cache 0 e' he' with ⟨e, he, b, hb⟩
    subst hb
    exact hall e he hid'

/-- A filter pass over its own output repeats the same marking: the
eligibility test reads no show flag, so both passes take the same
branches. -/
theorem applyFiltersList_idem (crit : Criteria) (cap : Nat) :
    ∀ (l : List TrackedObject) (k : Nat),
      applyFiltersList crit cap k ((applyFiltersList crit cap k l).1) =
        applyFiltersList crit cap k l := by
  intro l
  induction l with
  | nil => intro k; rfl
  | cons a rest ih =>
    intro k
    by_cases hc : passesFilters crit a = true ∧ k < cap
    · simp only [applyFiltersList, if_pos hc]
      have hc' : passesFilters crit ({ a with visible := true }) = true ∧ k < cap :=
        ⟨hc.1, hc.2⟩
      simp only [applyFiltersList, if_pos hc', ih (k + 1)]
    · simp only [applyFiltersList, if_neg hc]
      have hc' : ¬(passesFilters crit ({ a with visible := false }) = true ∧ k < cap) :=
        fun hx => hc ⟨hx.1, hx.2⟩
      simp only [applyFiltersList, if_neg hc', ih k]

/-- A filter recompute is idempotent on the whole state. -/
theorem applyFilters_idem (crit : Criteria) (cap : Nat) (st : SimState) :
    applyFilters crit cap (applyFilters crit cap st) = applyFilters crit cap st := by
  have h := applyFiltersList_idem crit cap st.cache 0
  simp only [applyFilters, updateCounter]
  rw [show (applyFiltersList crit cap 0
        ((applyFiltersList crit cap 0 st.cache).1)).1 =
      (applyFiltersList crit cap 0 st.cache).1 from congrArg Prod.fst h]

/-- Applying the same frame twice equals applying it once: the second
object loop rewrites every entry with the values it already holds, and
the second filter recompute repeats the same marking. -/
theorem applyFrame_twice (env : CesiumEnv) (crit : Criteria) (cap : Nat)
    (st : SimState) (f : FrameMsg) :
    applyFrame env crit cap (applyFrame env crit cap st f) f =
      applyFrame env crit cap st f := by
  have hestA : ∀ (k : Nat) (hk : k < f.objects.length),
      entryMatches env (0 + k) (f.objects.get ⟨k, hk⟩).1
        (applyFrame env crit cap st f).cache := by
    intro k hk
    exact applyFilters_preserves_match env (0 + k) (f.objects.get ⟨k, hk⟩).1
      crit cap
      { st with
          infoObjects := f.objectCount, infoCollisions := f.totalCollisions,
          infoStep := f.stepCollisions, sliderMax := f.objectCount,
          cache := applyObjects env f.objects 0 st.cache }
      (applyObjects_establishes env f.objects 0 st.cache k hk)
  have hnoop : applyObjects env f.objects 0 (applyFrame env crit cap st f).cache =
      (applyFrame env crit cap st f).cache :=
    applyObjects_noop env f.objects 0 (applyFrame env crit cap st f).cache hestA
  show applyFilters crit cap
      { applyFrame env crit cap st f with
          infoObjects := f.objectCount, infoCollisions := f.totalCollisions,
          infoStep := f.stepCollisions, sliderMax := f.objectCount,
          cache := applyObjects env f.objects 0 (applyFrame env crit cap st f).cache } =
    applyFrame env crit cap st f
  rw [hnoop]
  show applyFilters crit cap (applyFilters crit cap
      { st with
          infoObjects := f.objectCount, infoCollisions := f.totalCollisions,
          infoStep := f.stepCollisions, sliderMax := f.objectCount,
          cache := applyObjects env f.objects 0 st.cache }) =
    applyFilters crit cap
      { st with
          infoObjects := f.objectCount, infoCollisions := f.totalCollisions,
          infoStep := f.stepCollisions, sliderMax := f.objectCount,
          cache := applyObjects env f.objects 0 st.cache }
  exact applyFilters_idem crit cap _

/-- Claim C6: applying the identical upsert twice in a row is
idempotent, for every cache, id, sample and metadata; and hence
applying the whole frame message twice leaves the state exactly as
after the first application, the filter recompute included. -/
theorem upsert_frame_idempotent (env : CesiumEnv) (crit : Criteria) (cap : Nat) :
    (∀ (cache : List TrackedObject) (id : Nat) (posKm velKmps : Vec3)
        (mt mc : Option String),
      upsertLiveDotFromBackend env
          (upsertLiveDotFromBackend env cache id posKm velKmps mt mc)
          id posKm velKmps mt mc =
        upsertLiveDotFromBackend env cache id posKm velKmps mt mc) ∧
    (∀ (st : SimState) (f : FrameMsg),
      applyFrame env crit cap (applyFrame env crit cap st f) f =
        applyFrame env crit cap st f) :=
  ⟨fun cache id posKm velKmps mt mc =>
    upsert_noop env _ id posKm velKmps mt mc
      (upsert_establishes env cache id posKm velKmps mt mc),
   fun st f => applyFrame_twice env crit cap st f⟩

end KesslerSim
